import Mathlib

/-!
# YouTube Assistant — Analytics Engine: shallow embedding and verification

This file embeds the analytics functions of the YouTube Assistant Google Apps
Script project (main file `youtube-assistant.js`, plus the earlier draft
`4o.js` where a claim refers to it) and proves or refutes the frozen claims
about them.

Modelling conventions:
* JavaScript `number` arithmetic is modelled by exact rational arithmetic
  (`ℚ`).  All constants appearing in the source (`0.4`, `2.0`, `100`, …) are
  exact rationals.  Raw counts (views, likes, comments, seconds) are
  non-negative integers (`ℕ`), as the upstream API delivers decimal digit
  strings that the source passes through `parseInt`.
* `Math.round(x)` is `⌊x + 1/2⌋` and `x.toFixed(f)` is round-half-away-from-
  zero at `f` decimal digits (the numeric value of the string JS produces).
* JavaScript exceptions are modelled by `Option`: a function that can throw
  returns `none` on the throwing control path.
* `undefined` / `null` / missing fields are modelled by `Option` on the
  field or argument in question.
-/

/-- `AnalyticsEngine.calculateEngagementRate` (main file):
`views === 0 ? 0 : ((likes + comments) / views) * 100`. -/
def calculateEngagementRate (views likes comments : ℕ) : ℚ :=
  if views = 0 then 0 else (((likes : ℚ) + comments) / views) * 100

/-- The argument record of `AnalyticsEngine.generatePerformanceScore`: the
destructured `metrics` object `{viewCount, likeCount, commentCount,
subscriberCount, durationSeconds}` (each defaulting to 0). -/
structure PerfMetrics where
  viewCount : ℕ
  likeCount : ℕ
  commentCount : ℕ
  subscriberCount : ℕ
  durationSeconds : ℕ
deriving DecidableEq

/-- `Math.round`: round half up, i.e. `⌊q + 1/2⌋`. -/
def jsRound (q : ℚ) : ℤ := ⌊q + 1/2⌋

/-- Local `normalizedEngagement = Math.min(engagementRate / 10, 1)` of
`generatePerformanceScore`. -/
def normalizedEngagement (m : PerfMetrics) : ℚ :=
  min (calculateEngagementRate m.viewCount m.likeCount m.commentCount / 10) 1

/-- Local `likeRatio = viewCount > 0 ? Math.min((likeCount / viewCount) * 100, 1) : 0`
of `generatePerformanceScore` (called `likeRatio` in the source). -/
def likeRatioTerm (m : PerfMetrics) : ℚ :=
  if 0 < m.viewCount then min (((m.likeCount : ℚ) / m.viewCount) * 100) 1 else 0

/-- Local `commentRatio = viewCount > 0 ? Math.min((commentCount / viewCount) * 50, 1) : 0`
of `generatePerformanceScore` (called `commentRatio` in the source). -/
def commentRatioTerm (m : PerfMetrics) : ℚ :=
  if 0 < m.viewCount then min (((m.commentCount : ℚ) / m.viewCount) * 50) 1 else 0

/-- Local `durationFactor`: `0.8` for ≤ 60 s (Shorts penalty), `0.9` for
> 1200 s, otherwise `1`. -/
def durationFactor (m : PerfMetrics) : ℚ :=
  if m.durationSeconds ≤ 60 then 0.8
  else if 1200 < m.durationSeconds then 0.9
  else 1

/-- The flat view bonus `viewCount > 1000 ? 0.1 : 0` of
`generatePerformanceScore`. -/
def viewBonus (m : PerfMetrics) : ℚ :=
  if 1000 < m.viewCount then 0.1 else 0

/-- The `score` expression of `generatePerformanceScore` before rounding:
`(normalizedEngagement * 0.4 + likeRatio * 0.3 + commentRatio * 0.2 + bonus)
* durationFactor * 100`. -/
def rawScore (m : PerfMetrics) : ℚ :=
  (normalizedEngagement m * 0.4 + likeRatioTerm m * 0.3 +
    commentRatioTerm m * 0.2 + viewBonus m) * durationFactor m * 100

/-- `AnalyticsEngine.generatePerformanceScore` (main file):
`Math.round(Math.min(score, 100))`. -/
def generatePerformanceScore (m : PerfMetrics) : ℤ :=
  jsRound (min (rawScore m) 100)

/-- The `AnalyticsEngine` instance state: the only field the constructor
sets is `this.trendingThreshold = 2.0`. -/
structure AnalyticsEngine where
  trendingThreshold : ℚ

/-- `new AnalyticsEngine()`. -/
def AnalyticsEngine.init : AnalyticsEngine := { trendingThreshold := 2 }

/-- A per-video statistics record as consumed by `identifyTrendingContent`
(the caller `fetchYouTubeData` has already coerced the counts with
`parseInt(x || 0)`). -/
structure VideoStats where
  viewCount : ℕ
  likeCount : ℕ
  commentCount : ℕ
deriving DecidableEq

/-- `AnalyticsEngine.identifyTrendingContent`: `videoDataset.filter` keeping
the videos whose `calculateEngagementRate` is `>= this.trendingThreshold`. -/
def identifyTrendingContent (e : AnalyticsEngine) (videoDataset : List VideoStats) :
    List VideoStats :=
  videoDataset.filter fun video =>
    decide (e.trendingThreshold ≤
      calculateEngagementRate video.viewCount video.likeCount video.commentCount)

/-- The `item.statistics` object as consumed by `calculateShortsMetrics`:
each field may be absent (`none`); the source's `parseInt(field) || 0`
coerces an absent or non-numeric field to `0`, modelled by `Option.getD 0`. -/
structure RawStats where
  viewCount : Option ℕ
  likeCount : Option ℕ
  commentCount : Option ℕ

/-- The record returned by `calculateShortsMetrics`. -/
structure ShortsMetrics where
  engagementRate : ℚ
  likeRate : ℚ
  commentRate : ℚ
  viewsPerSecond : ℚ
  isHighEngagement : Bool

/-- `calculateShortsMetrics` (main file): all metrics stay `0`/`false`
unless `viewCount > 0`; `isHighEngagement = engagementRate > 2.0`. -/
def calculateShortsMetrics (stats : RawStats) (durationSeconds : ℕ) : ShortsMetrics :=
  let viewCount := stats.viewCount.getD 0
  let likeCount := stats.likeCount.getD 0
  let commentCount := stats.commentCount.getD 0
  if 0 < viewCount then
    let engagementRate : ℚ := (((likeCount : ℚ) + commentCount) / viewCount) * 100
    { engagementRate := engagementRate
      likeRate := ((likeCount : ℚ) / viewCount) * 100
      commentRate := ((commentCount : ℚ) / viewCount) * 100
      viewsPerSecond := if 0 < durationSeconds then (viewCount : ℚ) / durationSeconds else 0
      isHighEngagement := decide ((2 : ℚ) < engagementRate) }
  else
    { engagementRate := 0, likeRate := 0, commentRate := 0,
      viewsPerSecond := 0, isHighEngagement := false }

/-- `calculateShortsMetrics` (draft `4o.js`): identical rates, but
`isHighEngagement = durationSeconds <= 60 && engagementRate > 5`. -/
def calculateShortsMetrics4o (stats : RawStats) (durationSeconds : ℕ) : ShortsMetrics :=
  let viewCount := stats.viewCount.getD 0
  let likeCount := stats.likeCount.getD 0
  let commentCount := stats.commentCount.getD 0
  if 0 < viewCount then
    let engagementRate : ℚ := (((likeCount : ℚ) + commentCount) / viewCount) * 100
    { engagementRate := engagementRate
      likeRate := ((likeCount : ℚ) / viewCount) * 100
      commentRate := ((commentCount : ℚ) / viewCount) * 100
      viewsPerSecond := if 0 < durationSeconds then (viewCount : ℚ) / durationSeconds else 0
      isHighEngagement := decide (durationSeconds ≤ 60 ∧ (5 : ℚ) < engagementRate) }
  else
    { engagementRate := 0, likeRate := 0, commentRate := 0,
      viewsPerSecond := 0, isHighEngagement := false }

/-- `x.toFixed(f)` of JavaScript as an exact rational: round half away from
zero at `f` decimal digits (the numeric value of the produced string). -/
def jsToFixed (f : ℕ) (q : ℚ) : ℚ :=
  if q < 0 then -((⌊-q * 10 ^ f + 1/2⌋ : ℚ) / 10 ^ f)
  else (⌊q * 10 ^ f + 1/2⌋ : ℚ) / 10 ^ f

/-- `hoursElapsed = (now - uploadDate) / (1000 * 60 * 60)` of
`calculateVelocityMetrics`; timestamps are in milliseconds.  In the source
`now` is read from the system clock (`new Date()`) *inside* the function; the
embedding necessarily passes that ambient value as an explicit argument. -/
def hoursElapsedQ (publishedAt now : ℤ) : ℚ :=
  ((now : ℚ) - publishedAt) / (1000 * 60 * 60)

/-- `daysElapsed = hoursElapsed / 24` of `calculateVelocityMetrics`. -/
def daysElapsedQ (publishedAt now : ℤ) : ℚ :=
  hoursElapsedQ publishedAt now / 24

/-- The record returned by `calculateVelocityMetrics` (numeric values of the
`toFixed` strings the source produces). -/
structure VelocityMetrics where
  viewsPerHour : ℚ
  viewsPerDay : ℚ
  hoursElapsed : ℚ
  daysElapsed : ℚ

/-- `AnalyticsEngine.calculateVelocityMetrics`.  `publishedAt` is the parsed
timestamp of `new Date(publishedAt)` and `now` the ambient clock value read
inside the function, both in milliseconds since the epoch. -/
def calculateVelocityMetrics (viewCount : ℕ) (publishedAt now : ℤ) : VelocityMetrics :=
  { viewsPerHour :=
      if 0 < hoursElapsedQ publishedAt now then
        jsToFixed 2 ((viewCount : ℚ) / hoursElapsedQ publishedAt now)
      else 0
    viewsPerDay :=
      if 0 < daysElapsedQ publishedAt now then
        jsToFixed 0 ((viewCount : ℚ) / daysElapsedQ publishedAt now)
      else 0
    hoursElapsed := jsToFixed 1 (hoursElapsedQ publishedAt now)
    daysElapsed := jsToFixed 1 (daysElapsedQ publishedAt now) }

/-- One dataset entry as consumed by `analyzeUploadPatterns`: `day` and
`hour` stand for `new Date(video.publishedAt).getDay()` (0 = Sunday …
6 = Saturday) and `.getHours()` (0–23); the JS `Date` parsing itself is
outside the embedding, its two derived values are carried directly. -/
structure UploadRecord where
  day : Fin 7
  hour : Fin 24
deriving DecidableEq

/-- The `dayNames` array of `analyzeUploadPatterns`. -/
def dayNames : List String :=
  ["Sunday", "Monday", "Tuesday", "Wednesday", "Thursday", "Friday", "Saturday"]

/-- `dayStats[d]` after the accumulation loop (`(dayStats[d] || 0) + 1` per
video): the number of videos published on weekday `d`. -/
def dayCount (videoDataset : List UploadRecord) (d : ℕ) : ℕ :=
  videoDataset.countP (fun v => decide (v.day.val = d))

/-- `hourStats[h]` after the accumulation loop. -/
def hourCount (videoDataset : List UploadRecord) (h : ℕ) : ℕ :=
  videoDataset.countP (fun v => decide (v.hour.val = h))

/-- `Object.keys(dayStats)`: the integer-like keys present in the object,
which JavaScript enumerates in ascending numeric order.  A key is present
iff its count is positive. -/
def dayKeys (videoDataset : List UploadRecord) : List ℕ :=
  (List.range 7).filter (fun d => decide (0 < dayCount videoDataset d))

/-- `Object.keys(hourStats)`, in ascending numeric order. -/
def hourKeys (videoDataset : List UploadRecord) : List ℕ :=
  (List.range 24).filter (fun h => decide (0 < hourCount videoDataset h))

/-- The fold of `keys.reduce((a, b) => stats[a] > stats[b] ? a : b)` after
the first element has been taken as the accumulator: on each step the
accumulator is kept only if its count is strictly greater. -/
def pickBest (stats : ℕ → ℕ) (acc : ℕ) : List ℕ → ℕ
  | [] => acc
  | k :: ks => pickBest stats (if stats k < stats acc then acc else k) ks

/-- `keys.reduce((a, b) => stats[a] > stats[b] ? a : b)` with no initial
value: throws a `TypeError` on an empty key list (modelled by `none`). -/
def bestKey (stats : ℕ → ℕ) : List ℕ → Option ℕ
  | [] => none
  | k :: ks => some (pickBest stats k ks)

/-- The record returned by `analyzeUploadPatterns`. -/
structure UploadPatterns where
  bestUploadDay : String
  bestUploadHour : String
  dayDistribution : ℕ → ℕ
  hourDistribution : ℕ → ℕ

/-- `AnalyticsEngine.analyzeUploadPatterns`: histogram the publish weekdays
and hours, then pick `bestDay`/`bestHour` by the `reduce` above;
`bestUploadDay = dayNames[bestDay]`, `bestUploadHour` is the template string
`` `${bestHour}:00` ``.  `none` models the `TypeError` the `reduce` raises
when the dataset (hence the key set) is empty. -/
def analyzeUploadPatterns (videoDataset : List UploadRecord) : Option UploadPatterns :=
  match bestKey (dayCount videoDataset) (dayKeys videoDataset),
        bestKey (hourCount videoDataset) (hourKeys videoDataset) with
  | some bd, some bh =>
      some { bestUploadDay := dayNames.getD bd ""
             bestUploadHour := toString bh ++ ":00"
             dayDistribution := dayCount videoDataset
             hourDistribution := hourCount videoDataset }
  | _, _ => none

/-- One dataset entry as consumed by `identifyContentGaps`. -/
structure GapRecord where
  category : String
  durationSeconds : ℕ

/-- The `durations` tallies of `identifyContentGaps`:
`durationSeconds <= 60` → shorts, `<= 600` → midForm, else longForm. -/
structure DurationDist where
  shorts : ℕ
  midForm : ℕ
  longForm : ℕ

/-- `categories[cat]` after the accumulation loop of `identifyContentGaps`. -/
def categoryCount (videoDataset : List GapRecord) (cat : String) : ℕ :=
  videoDataset.countP (fun v => decide (v.category = cat))

/-- `Object.keys(categories)`: category names are non-numeric string keys,
which JavaScript enumerates in insertion order, i.e. order of first
occurrence in the dataset. -/
def categoryKeys (videoDataset : List GapRecord) : List String :=
  videoDataset.foldl (fun ks v => if v.category ∈ ks then ks else ks ++ [v.category]) []

/-- The duration-bucket tallies of `identifyContentGaps`. -/
def durationDistOf (videoDataset : List GapRecord) : DurationDist :=
  { shorts := videoDataset.countP (fun v => decide (v.durationSeconds ≤ 60))
    midForm := videoDataset.countP
      (fun v => decide (60 < v.durationSeconds ∧ v.durationSeconds ≤ 600))
    longForm := videoDataset.countP (fun v => decide (600 < v.durationSeconds)) }

/-- Rule-1 suggestion text of `generateContentSuggestions`. -/
def shortsSuggestion (searchQuery : String) : String :=
  "Consider creating Shorts content about \"" ++ searchQuery ++ "\" - underrepresented format"

/-- Rule-2 suggestion text of `generateContentSuggestions`. -/
def longFormSuggestion (searchQuery : String) : String :=
  "Opportunity for in-depth long-form content on \"" ++ searchQuery ++ "\""

/-- Rule-3 suggestion text of `generateContentSuggestions`. -/
def lowCompetitionSuggestion (category searchQuery : String) : String :=
  "Low competition in " ++ category ++ " for \"" ++ searchQuery ++ "\""

/-- `AnalyticsEngine.generateContentSuggestions`: rule 1 fires when
`shorts < midForm * 0.3`, rule 2 when `longForm < midForm * 0.2`, then one
suggestion per underrepresented category, in order. -/
def generateContentSuggestions (durations : DurationDist)
    (underrepresentedCategories : List String) (searchQuery : String) : List String :=
  (if (durations.shorts : ℚ) < (durations.midForm : ℚ) * 0.3
    then [shortsSuggestion searchQuery] else []) ++
  (if (durations.longForm : ℚ) < (durations.midForm : ℚ) * 0.2
    then [longFormSuggestion searchQuery] else []) ++
  underrepresentedCategories.map (fun category => lowCompetitionSuggestion category searchQuery)

/-- The record returned by `identifyContentGaps`. -/
structure ContentGaps where
  categoryDistribution : String → ℕ
  durationDistribution : DurationDist
  underrepresentedCategories : List String
  suggestions : List String

/-- `AnalyticsEngine.identifyContentGaps`: tally categories and duration
buckets, mark categories with a share `< 0.1` of `totalVideos` as
underrepresented, and generate suggestions.  On an empty dataset the key
list is empty, so the share division is never evaluated. -/
def identifyContentGaps (videoDataset : List GapRecord) (searchQuery : String) : ContentGaps :=
  let durations := durationDistOf videoDataset
  let totalVideos := videoDataset.length
  let under := (categoryKeys videoDataset).filter
    (fun cat => decide ((categoryCount videoDataset cat : ℚ) / totalVideos < 0.1))
  { categoryDistribution := categoryCount videoDataset
    durationDistribution := durations
    underrepresentedCategories := under
    suggestions := generateContentSuggestions durations under searchQuery }

/-- `parseInt` on the digit run captured by a regex group (`match[i].slice(0, -1)`
is the digit substring, most significant digit first). -/
def natOfDigits (l : List Char) : ℕ :=
  l.foldl (fun acc c => 10 * acc + (c.toNat - 48)) 0

/-- One optional group `(\d+U)?` of the duration regex at the current
position (`U` is `H`, `M` or `S`): it participates in the match iff a
non-empty maximal run of digits is followed immediately by the unit letter
(backtracking inside `\d+` cannot help, because the character after a
shorter run is again a digit); otherwise the group is skipped and the
position is unchanged. -/
def matchGroup (u : Char) (s : List Char) : Option ℕ × List Char :=
  match s.dropWhile Char.isDigit with
  | r :: rs =>
    if s.takeWhile Char.isDigit ≠ [] ∧ r = u
    then (some (natOfDigits (s.takeWhile Char.isDigit)), rs)
    else (none, s)
  | [] => (none, s)

/-- The three optional groups of `PT(\d+H)?(\d+M)?(\d+S)?` tried in order
after the literal `PT`. -/
def matchGroups (s : List Char) : Option ℕ × Option ℕ × Option ℕ :=
  let ph := matchGroup 'H' s
  let pm := matchGroup 'M' ph.2
  let ps := matchGroup 'S' pm.2
  (ph.1, pm.1, ps.1)

/-- `str.match(/PT(\d+H)?(\d+M)?(\d+S)?/)`: the regex matches at the first
occurrence of the literal `PT` (every group is optional, so the whole match
succeeds there) and `none` when the string contains no `PT`. -/
def findPT : List Char → Option (List Char)
  | 'P' :: 'T' :: rest => some rest
  | _ :: cs => findPT cs
  | [] => none

/-- The record returned by `getContentType` (main file). -/
structure ContentTypeInfo where
  type : String
  category : String
  durationSeconds : ℕ
  isShorts : Bool

/-- The `getContentType` result for absent, non-string or non-matching
input. -/
def unknownContentType : ContentTypeInfo :=
  { type := "Unknown", category := "unknown", durationSeconds := 0, isShorts := false }

/-- The classification branch of `getContentType` (both files use the same
thresholds): `totalSeconds <= 60` → Shorts, `<= 600` → Mid-form, else
Long-form; `isShorts = totalSeconds <= 60`. -/
def classifyDuration (totalSeconds : ℕ) : ContentTypeInfo :=
  if totalSeconds ≤ 60 then
    { type := "Shorts", category := "short-form", durationSeconds := totalSeconds,
      isShorts := decide (totalSeconds ≤ 60) }
  else if totalSeconds ≤ 600 then
    { type := "Mid-form", category := "mid-form", durationSeconds := totalSeconds,
      isShorts := decide (totalSeconds ≤ 60) }
  else
    { type := "Long-form", category := "long-form", durationSeconds := totalSeconds,
      isShorts := decide (totalSeconds ≤ 60) }

/-- `getContentType` (main file): `none` models `null`/`undefined`/non-string
input; the `!isoDuration` guard also catches the empty string; a string
without a regex match yields the Unknown record; otherwise
`totalSeconds = hours*3600 + minutes*60 + seconds` with absent groups `0`. -/
def getContentType (isoDuration : Option String) : ContentTypeInfo :=
  match isoDuration with
  | none => unknownContentType
  | some s =>
    if s = "" then unknownContentType
    else
      match findPT s.data with
      | none => unknownContentType
      | some rest =>
        match matchGroups rest with
        | (gh, gm, gs) => classifyDuration (gh.getD 0 * 3600 + gm.getD 0 * 60 + gs.getD 0)

/-- The decimal digit character for a digit value `d < 10`. -/
def digitChar (d : ℕ) : Char :=
  ['0', '1', '2', '3', '4', '5', '6', '7', '8', '9'].getD d '0'

/-- The decimal numeral of `n`, most significant digit first. -/
def natChars (n : ℕ) : List Char :=
  if n = 0 then ['0'] else (Nat.digits 10 n).reverse.map digitChar

/-- One optional component of a well-formed compact duration code: absent,
or a decimal numeral followed by its unit letter. -/
def renderGroup : Option ℕ → Char → List Char
  | none, _ => []
  | some n, u => natChars n ++ [u]

/-- A well-formed compact duration code `"PT[nH][nM][nS]"` with the given
optional hour/minute/second components. -/
def renderDuration (h m s : Option ℕ) : String :=
  ⟨'P' :: 'T' :: (renderGroup h 'H' ++ (renderGroup m 'M' ++ renderGroup s 'S'))⟩

theorem calculateEngagementRate_nonneg (v l c : ℕ) : 0 ≤ calculateEngagementRate v l c := by
  unfold calculateEngagementRate
  split
  · exact le_refl 0
  · positivity

theorem calculateEngagementRate_mono_likes (v c : ℕ) {l1 l2 : ℕ} (h : l1 ≤ l2) :
    calculateEngagementRate v l1 c ≤ calculateEngagementRate v l2 c := by
  unfold calculateEngagementRate
  split
  · exact le_refl 0
  · next hv =>
    have hv' : (0 : ℚ) < v := by exact_mod_cast Nat.pos_of_ne_zero hv
    have hlc : ((l1 : ℚ) + c) ≤ ((l2 : ℚ) + c) := by
      have : (l1 : ℚ) ≤ l2 := by exact_mod_cast h
      linarith
    exact mul_le_mul_of_nonneg_right (div_le_div_of_nonneg_right hlc hv'.le) (by norm_num)

theorem calculateEngagementRate_mono_comments (v l : ℕ) {c1 c2 : ℕ} (h : c1 ≤ c2) :
    calculateEngagementRate v l c1 ≤ calculateEngagementRate v l c2 := by
  unfold calculateEngagementRate
  split
  · exact le_refl 0
  · next hv =>
    have hv' : (0 : ℚ) < v := by exact_mod_cast Nat.pos_of_ne_zero hv
    have hlc : ((l : ℚ) + c1) ≤ ((l : ℚ) + c2) := by
      have : (c1 : ℚ) ≤ c2 := by exact_mod_cast h
      linarith
    exact mul_le_mul_of_nonneg_right (div_le_div_of_nonneg_right hlc hv'.le) (by norm_num)

theorem normalizedEngagement_nonneg (m : PerfMetrics) : 0 ≤ normalizedEngagement m :=
  le_min (div_nonneg (calculateEngagementRate_nonneg _ _ _) (by norm_num)) zero_le_one

theorem likeRatioTerm_nonneg (m : PerfMetrics) : 0 ≤ likeRatioTerm m := by
  unfold likeRatioTerm
  split
  · exact le_min (by positivity) zero_le_one
  · exact le_refl 0

theorem commentRatioTerm_nonneg (m : PerfMetrics) : 0 ≤ commentRatioTerm m := by
  unfold commentRatioTerm
  split
  · exact le_min (by positivity) zero_le_one
  · exact le_refl 0

theorem viewBonus_nonneg (m : PerfMetrics) : 0 ≤ viewBonus m := by
  unfold viewBonus
  split <;> norm_num

theorem durationFactor_nonneg (m : PerfMetrics) : 0 ≤ durationFactor m := by
  unfold durationFactor
  split
  · norm_num
  · split <;> norm_num

theorem rawScore_nonneg (m : PerfMetrics) : 0 ≤ rawScore m := by
  unfold rawScore
  have h1 := normalizedEngagement_nonneg m
  have h2 := likeRatioTerm_nonneg m
  have h3 := commentRatioTerm_nonneg m
  have h4 := viewBonus_nonneg m
  have h5 := durationFactor_nonneg m
  have hsum : 0 ≤ normalizedEngagement m * 0.4 + likeRatioTerm m * 0.3 +
      commentRatioTerm m * 0.2 + viewBonus m := by positivity
  positivity

theorem jsRound_mono {a b : ℚ} (h : a ≤ b) : jsRound a ≤ jsRound b :=
  Int.floor_le_floor (by linarith)

theorem normalizedEngagement_mono_likes (m : PerfMetrics) {l1 l2 : ℕ} (h : l1 ≤ l2) :
    normalizedEngagement {m with likeCount := l1} ≤
      normalizedEngagement {m with likeCount := l2} := by
  apply min_le_min _ le_rfl
  have key := calculateEngagementRate_mono_likes m.viewCount m.commentCount h
  show calculateEngagementRate m.viewCount l1 m.commentCount / 10 ≤
    calculateEngagementRate m.viewCount l2 m.commentCount / 10
  linarith

theorem normalizedEngagement_mono_comments (m : PerfMetrics) {c1 c2 : ℕ} (h : c1 ≤ c2) :
    normalizedEngagement {m with commentCount := c1} ≤
      normalizedEngagement {m with commentCount := c2} := by
  apply min_le_min _ le_rfl
  have key := calculateEngagementRate_mono_comments m.viewCount m.likeCount h
  show calculateEngagementRate m.viewCount m.likeCount c1 / 10 ≤
    calculateEngagementRate m.viewCount m.likeCount c2 / 10
  linarith

theorem likeRatioTerm_mono_likes (m : PerfMetrics) {l1 l2 : ℕ} (h : l1 ≤ l2) :
    likeRatioTerm {m with likeCount := l1} ≤ likeRatioTerm {m with likeCount := l2} := by
  show (if 0 < m.viewCount then min (((l1 : ℚ) / m.viewCount) * 100) 1 else 0) ≤
    (if 0 < m.viewCount then min (((l2 : ℚ) / m.viewCount) * 100) 1 else 0)
  split
  · next hv =>
    have hv' : (0 : ℚ) < m.viewCount := by exact_mod_cast hv
    have hl : (l1 : ℚ) ≤ l2 := by exact_mod_cast h
    exact min_le_min
      (mul_le_mul_of_nonneg_right (div_le_div_of_nonneg_right hl hv'.le) (by norm_num)) le_rfl
  · exact le_refl 0

theorem commentRatioTerm_mono_comments (m : PerfMetrics) {c1 c2 : ℕ} (h : c1 ≤ c2) :
    commentRatioTerm {m with commentCount := c1} ≤
      commentRatioTerm {m with commentCount := c2} := by
  show (if 0 < m.viewCount then min (((c1 : ℚ) / m.viewCount) * 50) 1 else 0) ≤
    (if 0 < m.viewCount then min (((c2 : ℚ) / m.viewCount) * 50) 1 else 0)
  split
  · next hv =>
    have hv' : (0 : ℚ) < m.viewCount := by exact_mod_cast hv
    have hc : (c1 : ℚ) ≤ c2 := by exact_mod_cast h
    exact min_le_min
      (mul_le_mul_of_nonneg_right (div_le_div_of_nonneg_right hc hv'.le) (by norm_num)) le_rfl
  · exact le_refl 0

theorem rawScore_mono_likes (m : PerfMetrics) {l1 l2 : ℕ} (h : l1 ≤ l2) :
    rawScore {m with likeCount := l1} ≤ rawScore {m with likeCount := l2} := by
  unfold rawScore
  apply mul_le_mul_of_nonneg_right _ (by norm_num : (0:ℚ) ≤ 100)
  apply mul_le_mul_of_nonneg_right _ (durationFactor_nonneg {m with likeCount := l2})
  have h1 := normalizedEngagement_mono_likes m h
  have h2 := likeRatioTerm_mono_likes m h
  have h3 : commentRatioTerm {m with likeCount := l1} =
      commentRatioTerm {m with likeCount := l2} := rfl
  have h4 : viewBonus {m with likeCount := l1} = viewBonus {m with likeCount := l2} := rfl
  rw [h3, h4]
  have := add_le_add (mul_le_mul_of_nonneg_right h1 (by norm_num : (0:ℚ) ≤ 0.4))
    (mul_le_mul_of_nonneg_right h2 (by norm_num : (0:ℚ) ≤ 0.3))
  linarith

theorem rawScore_mono_comments (m : PerfMetrics) {c1 c2 : ℕ} (h : c1 ≤ c2) :
    rawScore {m with commentCount := c1} ≤ rawScore {m with commentCount := c2} := by
  unfold rawScore
  apply mul_le_mul_of_nonneg_right _ (by norm_num : (0:ℚ) ≤ 100)
  apply mul_le_mul_of_nonneg_right _ (durationFactor_nonneg {m with commentCount := c2})
  have h1 := normalizedEngagement_mono_comments m h
  have h2 := commentRatioTerm_mono_comments m h
  have h3 : likeRatioTerm {m with commentCount := c1} =
      likeRatioTerm {m with commentCount := c2} := rfl
  have h4 : viewBonus {m with commentCount := c1} =
      viewBonus {m with commentCount := c2} := rfl
  rw [h3, h4]
  have := add_le_add (mul_le_mul_of_nonneg_right h1 (by norm_num : (0:ℚ) ≤ 0.4))
    (mul_le_mul_of_nonneg_right h2 (by norm_num : (0:ℚ) ≤ 0.2))
  linarith

/-- **C1.** For all non-negative integer inputs the Performance Scorer
returns an integer in `[0, 100]`, and the score is monotonically
non-decreasing in `likeCount` and in `commentCount` (all other inputs held
fixed; the monotonicity holds for every `viewCount`, in particular for every
positive one as the claim requires). -/
theorem generatePerformanceScore_range_and_mono (m : PerfMetrics)
    (l1 l2 c1 c2 : ℕ) (hl : l1 ≤ l2) (hc : c1 ≤ c2) :
    0 ≤ generatePerformanceScore m ∧ generatePerformanceScore m ≤ 100 ∧
    generatePerformanceScore {m with likeCount := l1} ≤
      generatePerformanceScore {m with likeCount := l2} ∧
    generatePerformanceScore {m with commentCount := c1} ≤
      generatePerformanceScore {m with commentCount := c2} := by
  refine ⟨?_, ?_, ?_, ?_⟩
  · show (0 : ℤ) ≤ jsRound (min (rawScore m) 100)
    have h0 : (0 : ℚ) ≤ min (rawScore m) 100 := le_min (rawScore_nonneg m) (by norm_num)
    exact Int.le_floor.mpr (by push_cast; linarith)
  · show jsRound (min (rawScore m) 100) ≤ 100
    have h1 : jsRound (min (rawScore m) 100) ≤ jsRound 100 := jsRound_mono (min_le_right _ _)
    have h2 : jsRound (100 : ℚ) = 100 := by norm_num [jsRound]
    omega
  · exact jsRound_mono (min_le_min (rawScore_mono_likes m hl) le_rfl)
  · exact jsRound_mono (min_le_min (rawScore_mono_comments m hc) le_rfl)

/-- Witness for `generatePerformanceScore_range_and_mono` at concrete inputs. -/
theorem generatePerformanceScore_range_and_mono_witness :
    0 ≤ generatePerformanceScore ⟨500, 10, 5, 7, 90⟩ ∧
    generatePerformanceScore ⟨500, 10, 5, 7, 90⟩ ≤ 100 ∧
    generatePerformanceScore ⟨500, 2, 5, 7, 90⟩ ≤ generatePerformanceScore ⟨500, 9, 5, 7, 90⟩ ∧
    generatePerformanceScore ⟨500, 10, 3, 7, 90⟩ ≤
      generatePerformanceScore ⟨500, 10, 8, 7, 90⟩ :=
  generatePerformanceScore_range_and_mono ⟨500, 10, 5, 7, 90⟩ 2 9 3 8
    (by decide) (by decide)

/-- **C9.** The Performance Scorer's output does not depend on
`subscriberCount`: the parameter is destructured from the `metrics` argument
but never used in the score expression. -/
theorem generatePerformanceScore_independent_of_subscriberCount
    (v l c s1 s2 d : ℕ) :
    generatePerformanceScore ⟨v, l, c, s1, d⟩ = generatePerformanceScore ⟨v, l, c, s2, d⟩ :=
  rfl


/-- **C6.** The Trend Identifier returns exactly the order-preserved subset
of the dataset with `calculateEngagementRate >= trendingThreshold`; the
boundary is inclusive: with the constructor's default threshold `2.0`, a
video with 100 views, 1 like and 1 comment (rate exactly `2.0`) is kept. -/
theorem identifyTrendingContent_spec (e : AnalyticsEngine) (ds : List VideoStats) :
    (identifyTrendingContent e ds).Sublist ds ∧
    (∀ v, v ∈ identifyTrendingContent e ds ↔ v ∈ ds ∧
      e.trendingThreshold ≤ calculateEngagementRate v.viewCount v.likeCount v.commentCount) ∧
    (∀ v, (identifyTrendingContent e ds).count v =
      if e.trendingThreshold ≤ calculateEngagementRate v.viewCount v.likeCount v.commentCount
      then ds.count v else 0) ∧
    calculateEngagementRate 100 1 1 = 2 ∧
    AnalyticsEngine.init.trendingThreshold = 2 ∧
    (⟨100, 1, 1⟩ : VideoStats) ∈ identifyTrendingContent AnalyticsEngine.init [⟨100, 1, 1⟩] := by
  refine ⟨List.filter_sublist _, ?_, ?_, ?_, rfl, ?_⟩
  · intro v
    rw [identifyTrendingContent, List.mem_filter]
    simp
  · intro v
    by_cases hp : e.trendingThreshold ≤
        calculateEngagementRate v.viewCount v.likeCount v.commentCount
    · rw [if_pos hp]
      exact List.count_filter (by simpa using hp)
    · rw [if_neg hp, List.count_eq_zero]
      intro hm
      exact hp (by simpa using (List.mem_filter.1 hm).2)
  · norm_num [calculateEngagementRate]
  · rw [identifyTrendingContent, List.mem_filter]
    refine ⟨List.mem_singleton_self _, ?_⟩
    have : calculateEngagementRate 100 1 1 = 2 := by norm_num [calculateEngagementRate]
    simp [AnalyticsEngine.init, this]

/-- **C7.** The Metrics Calculator's `engagementRate` coincides with the
canonical two-argument-form `calculateEngagementRate` (both are `0` when
`viewCount` is `0` and `(likes+comments)/views*100` otherwise), the canonical
worked example evaluates to exactly `6`, and any threshold comparison agrees
on the two computations. -/
theorem engagementRate_consistency (v l c d : ℕ) (th : ℚ) :
    (calculateShortsMetrics ⟨some v, some l, some c⟩ d).engagementRate =
      calculateEngagementRate v l c ∧
    calculateEngagementRate 1000 50 10 = 6 ∧
    (th ≤ (calculateShortsMetrics ⟨some v, some l, some c⟩ d).engagementRate ↔
      th ≤ calculateEngagementRate v l c) := by
  have key : (calculateShortsMetrics ⟨some v, some l, some c⟩ d).engagementRate =
      calculateEngagementRate v l c := by
    by_cases hv : v = 0
    · subst hv
      simp [calculateShortsMetrics, calculateEngagementRate]
    · simp [calculateShortsMetrics, calculateEngagementRate, hv, Nat.pos_of_ne_zero hv]
  exact ⟨key, by norm_num [calculateEngagementRate], by rw [key]⟩

/-- **C10.** In both source variants of `calculateShortsMetrics`, a video
whose `viewCount` coerces to `0` (absent field or literal `0`) gets
`isHighEngagement = false`, regardless of likes, comments and duration. -/
theorem isHighEngagement_requires_views (stats : RawStats) (d : ℕ)
    (h : stats.viewCount = none ∨ stats.viewCount = some 0) :
    (calculateShortsMetrics stats d).isHighEngagement = false ∧
    (calculateShortsMetrics4o stats d).isHighEngagement = false := by
  rcases h with h | h <;>
    simp [calculateShortsMetrics, calculateShortsMetrics4o, h]

/-- Witness for `isHighEngagement_requires_views`: absent view count, large
like/comment counts. -/
theorem isHighEngagement_requires_views_witness :
    (calculateShortsMetrics ⟨none, some 99, some 99⟩ 30).isHighEngagement = false ∧
    (calculateShortsMetrics4o ⟨none, some 99, some 99⟩ 30).isHighEngagement = false :=
  isHighEngagement_requires_views ⟨none, some 99, some 99⟩ 30 (Or.inl rfl)

theorem jsToFixed_nonneg (f : ℕ) {q : ℚ} (h : 0 ≤ q) : 0 ≤ jsToFixed f q := by
  unfold jsToFixed
  rw [if_neg (not_lt.mpr h)]
  have h1 : (0:ℚ) ≤ q * 10 ^ f := mul_nonneg h (by positivity)
  have hfl : (0 : ℤ) ≤ ⌊q * 10 ^ f + 1/2⌋ := Int.le_floor.mpr (by push_cast; linarith)
  have h2 : (0:ℚ) ≤ (⌊q * 10 ^ f + 1/2⌋ : ℚ) := by exact_mod_cast hfl
  exact div_nonneg h2 (by positivity)

/-- **C8** (amended.)  With the ambient clock value passed explicitly (in the
source `now = new Date()` is read *inside* the function), the Velocity
Calculator's fields are never negative; if `hoursElapsed ≤ 0` both velocity
fields are `0`; and if `hoursElapsed > 0` then `viewsPerHour` is
`viewCount/hoursElapsed` rounded by `toFixed(2)` and `viewsPerDay` is
`viewCount/daysElapsed` (with `daysElapsed = hoursElapsed/24`) rounded by
`toFixed(0)`. -/
theorem calculateVelocityMetrics_spec (v : ℕ) (pub t : ℤ) :
    0 ≤ (calculateVelocityMetrics v pub t).viewsPerHour ∧
    0 ≤ (calculateVelocityMetrics v pub t).viewsPerDay ∧
    (hoursElapsedQ pub t ≤ 0 →
      (calculateVelocityMetrics v pub t).viewsPerHour = 0 ∧
      (calculateVelocityMetrics v pub t).viewsPerDay = 0) ∧
    (0 < hoursElapsedQ pub t →
      (calculateVelocityMetrics v pub t).viewsPerHour =
        jsToFixed 2 ((v : ℚ) / hoursElapsedQ pub t) ∧
      (calculateVelocityMetrics v pub t).viewsPerDay =
        jsToFixed 0 ((v : ℚ) / (hoursElapsedQ pub t / 24))) := by
  have hdays : daysElapsedQ pub t = hoursElapsedQ pub t / 24 := rfl
  refine ⟨?_, ?_, fun hle => ⟨?_, ?_⟩, fun hpos => ⟨?_, ?_⟩⟩
  · simp only [calculateVelocityMetrics]
    split
    · next hp => exact jsToFixed_nonneg 2 (div_nonneg (by positivity) hp.le)
    · exact le_refl 0
  · simp only [calculateVelocityMetrics]
    split
    · next hp => exact jsToFixed_nonneg 0 (div_nonneg (by positivity) hp.le)
    · exact le_refl 0
  · simp only [calculateVelocityMetrics]
    exact if_neg (not_lt.mpr hle)
  · simp only [calculateVelocityMetrics]
    refine if_neg (not_lt.mpr ?_)
    rw [hdays]
    linarith
  · simp only [calculateVelocityMetrics]
    exact if_pos hpos
  · simp only [calculateVelocityMetrics]
    rw [hdays] at *
    exact if_pos (by linarith)

/-- Witness for `calculateVelocityMetrics_spec`: one view, published at the
epoch, clock three hours later (`hoursElapsed = 3`). -/
theorem calculateVelocityMetrics_spec_witness :
    0 ≤ (calculateVelocityMetrics 1 0 10800000).viewsPerHour ∧
    0 ≤ (calculateVelocityMetrics 1 0 10800000).viewsPerDay ∧
    (hoursElapsedQ 0 10800000 ≤ 0 →
      (calculateVelocityMetrics 1 0 10800000).viewsPerHour = 0 ∧
      (calculateVelocityMetrics 1 0 10800000).viewsPerDay = 0) ∧
    (0 < hoursElapsedQ 0 10800000 →
      (calculateVelocityMetrics 1 0 10800000).viewsPerHour =
        jsToFixed 2 ((1 : ℚ) / hoursElapsedQ 0 10800000) ∧
      (calculateVelocityMetrics 1 0 10800000).viewsPerDay =
        jsToFixed 0 ((1 : ℚ) / (hoursElapsedQ 0 10800000 / 24))) := by
  have := calculateVelocityMetrics_spec 1 0 10800000
  simpa using this

/-- **C8** (counterexample to the claim as stated.)  The claim asserts
`viewsPerHour = viewCount / hoursElapsed` exactly, but the source applies
`toFixed(2)`: with 1 view and 3 elapsed hours the code yields `0.33`, not
`1/3`.  (The claim's other premise — that the current time is an explicit
parameter — is likewise false of the source, which calls `new Date()`
inside the function; that aspect has no shallow-embedding refutation and is
recorded in the amendment.) -/
theorem calculateVelocityMetrics_rounding_counterexample :
    (calculateVelocityMetrics 1 0 10800000).viewsPerHour = 33/100 ∧
    (calculateVelocityMetrics 1 0 10800000).viewsPerHour ≠ (1 : ℚ) / 3 := by
  have h3 : hoursElapsedQ 0 10800000 = 3 := by norm_num [hoursElapsedQ]
  have key : (calculateVelocityMetrics 1 0 10800000).viewsPerHour = 33/100 := by
    simp only [calculateVelocityMetrics, h3]
    rw [if_pos (by norm_num : (0:ℚ) < 3)]
    norm_num [jsToFixed]
  exact ⟨key, by rw [key]; norm_num⟩

theorem pickBest_mem (stats : ℕ → ℕ) (l : List ℕ) : ∀ acc, pickBest stats acc l ∈ acc :: l := by
  induction l with
  | nil => intro acc; simp [pickBest]
  | cons k ks ih =>
    intro acc
    simp only [pickBest]
    rcases List.mem_cons.mp (ih (if stats k < stats acc then acc else k)) with h | h
    · rw [h]
      split
      · exact List.mem_cons_self _ _
      · exact List.mem_cons_of_mem _ (List.mem_cons_self _ _)
    · exact List.mem_cons_of_mem _ (List.mem_cons_of_mem _ h)

theorem stats_le_pickBest (stats : ℕ → ℕ) (l : List ℕ) :
    ∀ acc, ∀ k ∈ acc :: l, stats k ≤ stats (pickBest stats acc l) := by
  induction l with
  | nil =>
    intro acc k hk
    rw [List.mem_singleton] at hk
    subst hk
    simp [pickBest]
  | cons b bs ih =>
    intro acc k hk
    simp only [pickBest]
    set a' := if stats b < stats acc then acc else b with ha'
    have hacc : stats acc ≤ stats a' := by
      rw [ha']; split
      · exact le_rfl
      · next hns => exact le_of_not_lt hns
    have hb : stats b ≤ stats a' := by
      rw [ha']; split
      · next hlt => exact le_of_lt hlt
      · exact le_rfl
    have ha'le : stats a' ≤ stats (pickBest stats a' bs) :=
      ih a' a' (List.mem_cons_self _ _)
    rcases List.mem_cons.mp hk with rfl | hk'
    · exact le_trans hacc ha'le
    rcases List.mem_cons.mp hk' with rfl | hk''
    · exact le_trans hb ha'le
    · exact ih a' k (List.mem_cons_of_mem _ hk'')

theorem le_pickBest_of_stats_eq (stats : ℕ → ℕ) (l : List ℕ) :
    ∀ acc, (acc :: l).Pairwise (· < ·) → ∀ k ∈ acc :: l,
      stats k = stats (pickBest stats acc l) → k ≤ pickBest stats acc l := by
  induction l with
  | nil =>
    intro acc _ k hk _
    rw [List.mem_singleton] at hk
    subst hk
    simp [pickBest]
  | cons b bs ih =>
    intro acc hpw k hk heq
    simp only [pickBest] at heq ⊢
    set a' := if stats b < stats acc then acc else b with ha'
    have hpw1 : ∀ x ∈ b :: bs, acc < x := (List.pairwise_cons.mp hpw).1
    have hpw2 : (b :: bs).Pairwise (· < ·) := (List.pairwise_cons.mp hpw).2
    have hpwb : ∀ x ∈ bs, b < x := (List.pairwise_cons.mp hpw2).1
    have hpwbs : bs.Pairwise (· < ·) := (List.pairwise_cons.mp hpw2).2
    have hpwa' : (a' :: bs).Pairwise (· < ·) := by
      rw [List.pairwise_cons]
      refine ⟨fun x hx => ?_, hpwbs⟩
      rw [ha']
      split
      · exact hpw1 x (List.mem_cons_of_mem _ hx)
      · exact hpwb x hx
    have ha'_le_r : a' ≤ pickBest stats a' bs := by
      rcases List.mem_cons.mp (pickBest_mem stats bs a') with h | h
      · rw [h]
      · exact le_of_lt ((List.pairwise_cons.mp hpwa').1 _ h)
    rcases List.mem_cons.mp hk with rfl | hk'
    · by_cases hlt : stats b < stats k
      · have hacc : k = a' := by rw [ha', if_pos hlt]
        exact ih a' hpwa' k (hacc ▸ List.mem_cons_self _ _) heq
      · have hab' : a' = b := by rw [ha', if_neg hlt]
        have hkb : k < b := hpw1 b (List.mem_cons_self _ _)
        exact le_trans (le_of_lt (hab' ▸ hkb)) ha'_le_r
    rcases List.mem_cons.mp hk' with rfl | hk''
    · by_cases hlt : stats k < stats acc
      · have ha'acc : a' = acc := by rw [ha', if_pos hlt]
        have hle : stats acc ≤ stats (pickBest stats a' bs) :=
          stats_le_pickBest stats bs a' acc (ha'acc ▸ List.mem_cons_self _ _)
        omega
      · have hab' : a' = k := by rw [ha', if_neg hlt]
        exact ih a' hpwa' k (hab' ▸ List.mem_cons_self _ _) heq
    · exact ih a' hpwa' k (List.mem_cons_of_mem _ hk'') heq

theorem bestKey_spec (stats : ℕ → ℕ) (keys : List ℕ)
    (hpw : keys.Pairwise (· < ·)) (hne : keys ≠ []) :
    ∃ r, bestKey stats keys = some r ∧ r ∈ keys ∧
      (∀ k ∈ keys, stats k ≤ stats r) ∧
      (∀ k ∈ keys, stats k = stats r → k ≤ r) := by
  cases keys with
  | nil => exact absurd rfl hne
  | cons k ks =>
    exact ⟨pickBest stats k ks, rfl, pickBest_mem stats ks k,
      fun x hx => stats_le_pickBest stats ks k x hx,
      fun x hx heq => le_pickBest_of_stats_eq stats ks k hpw x hx heq⟩

theorem mem_dayKeys (ds : List UploadRecord) (d : ℕ) :
    d ∈ dayKeys ds ↔ d < 7 ∧ 0 < dayCount ds d := by
  simp [dayKeys, List.mem_filter, List.mem_range]

theorem mem_hourKeys (ds : List UploadRecord) (h : ℕ) :
    h ∈ hourKeys ds ↔ h < 24 ∧ 0 < hourCount ds h := by
  simp [hourKeys, List.mem_filter, List.mem_range]

/-- **C3** (amended.)  For every non-empty dataset, `analyzeUploadPatterns`
returns `bestUploadDay`/`bestUploadHour` equal to a day key (mapped through
`dayNames`) and hour key attaining the maximum count of the respective
distribution; when several keys attain the maximal count, the **last** key
in ascending numeric key order wins (the `reduce` keeps the accumulator
only on a strictly greater count, so ties move to the later key). -/
theorem analyzeUploadPatterns_mode (ds : List UploadRecord) (hne : ds ≠ []) :
    ∃ bd bh, bd < 7 ∧ bh < 24 ∧
      analyzeUploadPatterns ds =
        some { bestUploadDay := dayNames.getD bd ""
               bestUploadHour := toString bh ++ ":00"
               dayDistribution := dayCount ds
               hourDistribution := hourCount ds } ∧
      (∀ d < 7, dayCount ds d ≤ dayCount ds bd) ∧
      (∀ d < 7, dayCount ds d = dayCount ds bd → d ≤ bd) ∧
      (∀ h < 24, hourCount ds h ≤ hourCount ds bh) ∧
      (∀ h < 24, hourCount ds h = hourCount ds bh → h ≤ bh) := by
  obtain ⟨v, vs, rfl⟩ : ∃ v vs, ds = v :: vs := by
    cases ds with
    | nil => exact absurd rfl hne
    | cons v vs => exact ⟨v, vs, rfl⟩
  have hd0 : 0 < dayCount (v :: vs) v.day.val := by
    simp [dayCount, List.countP_cons]
  have hh0 : 0 < hourCount (v :: vs) v.hour.val := by
    simp [hourCount, List.countP_cons]
  have hdmem : v.day.val ∈ dayKeys (v :: vs) := (mem_dayKeys _ _).mpr ⟨v.day.isLt, hd0⟩
  have hhmem : v.hour.val ∈ hourKeys (v :: vs) := (mem_hourKeys _ _).mpr ⟨v.hour.isLt, hh0⟩
  have hdpw : (dayKeys (v :: vs)).Pairwise (· < ·) :=
    (List.pairwise_lt_range 7).filter _
  have hhpw : (hourKeys (v :: vs)).Pairwise (· < ·) :=
    (List.pairwise_lt_range 24).filter _
  obtain ⟨bd, hbd_eq, hbd_mem, hbd_max, hbd_last⟩ :=
    bestKey_spec (dayCount (v :: vs)) _ hdpw (List.ne_nil_of_mem hdmem)
  obtain ⟨bh, hbh_eq, hbh_mem, hbh_max, hbh_last⟩ :=
    bestKey_spec (hourCount (v :: vs)) _ hhpw (List.ne_nil_of_mem hhmem)
  have hbd_pos := ((mem_dayKeys _ _).mp hbd_mem).2
  have hbh_pos := ((mem_hourKeys _ _).mp hbh_mem).2
  refine ⟨bd, bh, ((mem_dayKeys _ _).mp hbd_mem).1, ((mem_hourKeys _ _).mp hbh_mem).1,
    ?_, ?_, ?_, ?_, ?_⟩
  · rw [analyzeUploadPatterns, hbd_eq, hbh_eq]
  · intro d hd7
    by_cases h0 : 0 < dayCount (v :: vs) d
    · exact hbd_max d ((mem_dayKeys _ _).mpr ⟨hd7, h0⟩)
    · omega
  · intro d hd7 heq
    have h0 : 0 < dayCount (v :: vs) d := heq ▸ hbd_pos
    exact hbd_last d ((mem_dayKeys _ _).mpr ⟨hd7, h0⟩) heq
  · intro h hh24
    by_cases h0 : 0 < hourCount (v :: vs) h
    · exact hbh_max h ((mem_hourKeys _ _).mpr ⟨hh24, h0⟩)
    · omega
  · intro h hh24 heq
    have h0 : 0 < hourCount (v :: vs) h := heq ▸ hbh_pos
    exact hbh_last h ((mem_hourKeys _ _).mpr ⟨hh24, h0⟩) heq

/-- Witness for `analyzeUploadPatterns_mode`: three Monday 9:00 videos and
one Tuesday 10:00 video (the spec's worked example). -/
theorem analyzeUploadPatterns_mode_witness :
    ∃ bd bh, bd < 7 ∧ bh < 24 ∧
      analyzeUploadPatterns [⟨1, 9⟩, ⟨1, 9⟩, ⟨1, 9⟩, ⟨2, 10⟩] =
        some { bestUploadDay := dayNames.getD bd ""
               bestUploadHour := toString bh ++ ":00"
               dayDistribution := dayCount [⟨1, 9⟩, ⟨1, 9⟩, ⟨1, 9⟩, ⟨2, 10⟩]
               hourDistribution := hourCount [⟨1, 9⟩, ⟨1, 9⟩, ⟨1, 9⟩, ⟨2, 10⟩] } ∧
      (∀ d < 7, dayCount [⟨1, 9⟩, ⟨1, 9⟩, ⟨1, 9⟩, ⟨2, 10⟩] d ≤
        dayCount [⟨1, 9⟩, ⟨1, 9⟩, ⟨1, 9⟩, ⟨2, 10⟩] bd) ∧
      (∀ d < 7, dayCount [⟨1, 9⟩, ⟨1, 9⟩, ⟨1, 9⟩, ⟨2, 10⟩] d =
        dayCount [⟨1, 9⟩, ⟨1, 9⟩, ⟨1, 9⟩, ⟨2, 10⟩] bd → d ≤ bd) ∧
      (∀ h < 24, hourCount [⟨1, 9⟩, ⟨1, 9⟩, ⟨1, 9⟩, ⟨2, 10⟩] h ≤
        hourCount [⟨1, 9⟩, ⟨1, 9⟩, ⟨1, 9⟩, ⟨2, 10⟩] bh) ∧
      (∀ h < 24, hourCount [⟨1, 9⟩, ⟨1, 9⟩, ⟨1, 9⟩, ⟨2, 10⟩] h =
        hourCount [⟨1, 9⟩, ⟨1, 9⟩, ⟨1, 9⟩, ⟨2, 10⟩] bh → h ≤ bh) :=
  analyzeUploadPatterns_mode [⟨1, 9⟩, ⟨1, 9⟩, ⟨1, 9⟩, ⟨2, 10⟩] (by simp)

/-- **C3** (counterexample to the claim as stated.)  The claim's tie-break
rule says the *first* key in ascending numeric order wins, which for a
dataset with one Sunday (day 0) and one Monday (day 1) video would give
`"Sunday"`; the code returns `"Monday"`, because
`(a, b) => stats[a] > stats[b] ? a : b` yields `b` on equal counts. -/
theorem analyzeUploadPatterns_tie_counterexample :
    (analyzeUploadPatterns [⟨0, 0⟩, ⟨1, 0⟩]).map (fun r => r.bestUploadDay) =
      some "Monday" ∧ "Monday" ≠ "Sunday" := by
  exact ⟨rfl, by decide⟩

/-- **C2.**  On the empty dataset `analyzeUploadPatterns` *throws* (the
`reduce` over the empty `Object.keys(dayStats)` has no initial value —
modelled by `none`), while `identifyContentGaps` returns an empty
`underrepresentedCategories` list and no suggestions (rules 1–2 compare
`0 < 0 * ratio` which is false) without raising. -/
theorem emptyDataset_aggregates :
    analyzeUploadPatterns ([] : List UploadRecord) = none ∧
    (identifyContentGaps ([] : List GapRecord) "query").underrepresentedCategories = [] ∧
    (identifyContentGaps ([] : List GapRecord) "query").suggestions = [] := by
  refine ⟨rfl, ?_, ?_⟩
  · simp [identifyContentGaps, categoryKeys]
  · simp only [identifyContentGaps, categoryKeys, List.foldl_nil, List.filter_nil,
      generateContentSuggestions, durationDistOf, List.countP_nil, List.map_nil,
      List.append_nil]
    norm_num

theorem takeWhile_append_unit (p : Char → Bool) (l1 : List Char) (u : Char) (l2 : List Char)
    (h1 : ∀ c ∈ l1, p c = true) (hu : p u = false) :
    (l1 ++ u :: l2).takeWhile p = l1 := by
  induction l1 with
  | nil => simp [List.takeWhile_cons, hu]
  | cons c t ih =>
    have hc : p c = true := h1 c (List.mem_cons_self _ _)
    simp [List.takeWhile_cons, hc, ih (fun x hx => h1 x (List.mem_cons_of_mem _ hx))]

theorem dropWhile_append_unit (p : Char → Bool) (l1 : List Char) (u : Char) (l2 : List Char)
    (h1 : ∀ c ∈ l1, p c = true) (hu : p u = false) :
    (l1 ++ u :: l2).dropWhile p = u :: l2 := by
  induction l1 with
  | nil => simp [List.dropWhile_cons, hu]
  | cons c t ih =>
    have hc : p c = true := h1 c (List.mem_cons_self _ _)
    simp [List.dropWhile_cons, hc, ih (fun x hx => h1 x (List.mem_cons_of_mem _ hx))]

theorem digitChar_isDigit {d : ℕ} (hd : d < 10) : (digitChar d).isDigit = true := by
  interval_cases d <;> decide

theorem toNat_digitChar {d : ℕ} (hd : d < 10) : (digitChar d).toNat - 48 = d := by
  interval_cases d <;> decide

theorem natOfDigits_aux (l : List ℕ) (hl : ∀ d ∈ l, d < 10) : ∀ a : ℕ,
    (l.map digitChar).foldl (fun acc c => 10 * acc + (c.toNat - 48)) a =
      a * 10 ^ l.length + Nat.ofDigits 10 l.reverse := by
  induction l with
  | nil => intro a; simp [Nat.ofDigits]
  | cons d t ih =>
    intro a
    have hd : d < 10 := hl d (List.mem_cons_self _ _)
    simp only [List.map_cons, List.foldl_cons, toNat_digitChar hd]
    rw [ih (fun x hx => hl x (List.mem_cons_of_mem _ hx))]
    simp only [List.reverse_cons, Nat.ofDigits_append, Nat.ofDigits_singleton,
      List.length_reverse, List.length_cons, pow_succ]
    ring

theorem natChars_ne_nil (n : ℕ) : natChars n ≠ [] := by
  unfold natChars
  split
  · simp
  · next h =>
    simp [Nat.digits_ne_nil_iff_ne_zero.mpr h]

theorem natChars_all_digits (n : ℕ) : ∀ c ∈ natChars n, c.isDigit = true := by
  unfold natChars
  split
  · intro c hc
    rw [List.mem_singleton] at hc
    subst hc
    decide
  · intro c hc
    obtain ⟨d, hd, rfl⟩ := List.mem_map.mp hc
    exact digitChar_isDigit (Nat.digits_lt_base (by norm_num) (List.mem_reverse.mp hd))

theorem natOfDigits_natChars (n : ℕ) : natOfDigits (natChars n) = n := by
  unfold natChars
  split
  · next h => subst h; decide
  · next h =>
    show ((Nat.digits 10 n).reverse.map digitChar).foldl
      (fun acc c => 10 * acc + (c.toNat - 48)) 0 = n
    rw [natOfDigits_aux (Nat.digits 10 n).reverse
      (fun d hd => Nat.digits_lt_base (by norm_num) (List.mem_reverse.mp hd)) 0]
    simp [Nat.ofDigits_digits]

theorem matchGroup_nil (u : Char) : matchGroup u [] = (none, []) := rfl

theorem matchGroup_eat (u : Char) (hu : u.isDigit = false) (ds rest : List Char)
    (hds : ds ≠ []) (hall : ∀ c ∈ ds, c.isDigit = true) :
    matchGroup u (ds ++ u :: rest) = (some (natOfDigits ds), rest) := by
  have h1 := dropWhile_append_unit Char.isDigit ds u rest hall hu
  have h2 := takeWhile_append_unit Char.isDigit ds u rest hall hu
  simp only [matchGroup, h1, h2]
  exact if_pos ⟨hds, trivial⟩

theorem matchGroup_skip (u r : Char) (ds rest : List Char)
    (hall : ∀ c ∈ ds, c.isDigit = true) (hr : r ≠ u) (hrd : r.isDigit = false) :
    matchGroup u (ds ++ r :: rest) = (none, ds ++ r :: rest) := by
  have h1 := dropWhile_append_unit Char.isDigit ds r rest hall hrd
  have h2 := takeWhile_append_unit Char.isDigit ds r rest hall hrd
  simp only [matchGroup, h1, h2]
  rw [if_neg (fun hand => hr hand.2)]

theorem matchGroups_eq (body r1 r2 r3 : List Char) (g1 g2 g3 : Option ℕ)
    (e1 : matchGroup 'H' body = (g1, r1)) (e2 : matchGroup 'M' r1 = (g2, r2))
    (e3 : matchGroup 'S' r2 = (g3, r3)) :
    matchGroups body = (g1, g2, g3) := by
  simp [matchGroups, e1, e2, e3]

theorem matchGroups_render (h m s : Option ℕ) :
    matchGroups (renderGroup h 'H' ++ (renderGroup m 'M' ++ renderGroup s 'S')) =
      (h, m, s) := by
  rcases h with _ | a <;> rcases m with _ | b <;> rcases s with _ | c
  · exact matchGroups_eq [] [] [] [] none none none rfl rfl rfl
  · -- s only
    simp only [renderGroup, List.nil_append]
    refine matchGroups_eq _ (natChars c ++ ['S']) (natChars c ++ ['S']) [] none none (some c) ?_ ?_ ?_
    · exact matchGroup_skip 'H' 'S' (natChars c) [] (natChars_all_digits c)
        (by decide) (by decide)
    · exact matchGroup_skip 'M' 'S' (natChars c) [] (natChars_all_digits c)
        (by decide) (by decide)
    · rw [matchGroup_eat 'S' (by decide) (natChars c) [] (natChars_ne_nil c)
        (natChars_all_digits c), natOfDigits_natChars]
  · -- m only
    simp only [renderGroup, List.nil_append, List.append_nil]
    refine matchGroups_eq _ (natChars b ++ ['M']) [] [] none (some b) none ?_ ?_ ?_
    · exact matchGroup_skip 'H' 'M' (natChars b) [] (natChars_all_digits b)
        (by decide) (by decide)
    · rw [matchGroup_eat 'M' (by decide) (natChars b) [] (natChars_ne_nil b)
        (natChars_all_digits b), natOfDigits_natChars]
    · exact matchGroup_nil 'S'
  · -- m and s
    simp only [renderGroup, List.nil_append, List.append_assoc, List.cons_append]
    refine matchGroups_eq _ (natChars b ++ 'M' :: (natChars c ++ ['S']))
      (natChars c ++ ['S']) [] none (some b) (some c) ?_ ?_ ?_
    · exact matchGroup_skip 'H' 'M' (natChars b) (natChars c ++ ['S'])
        (natChars_all_digits b) (by decide) (by decide)
    · rw [matchGroup_eat 'M' (by decide) (natChars b) (natChars c ++ ['S'])
        (natChars_ne_nil b) (natChars_all_digits b), natOfDigits_natChars]
    · rw [matchGroup_eat 'S' (by decide) (natChars c) [] (natChars_ne_nil c)
        (natChars_all_digits c), natOfDigits_natChars]
  · -- h only
    simp only [renderGroup, List.append_nil]
    refine matchGroups_eq _ [] [] [] (some a) none none ?_ ?_ ?_
    · rw [matchGroup_eat 'H' (by decide) (natChars a) [] (natChars_ne_nil a)
        (natChars_all_digits a), natOfDigits_natChars]
    · exact matchGroup_nil 'M'
    · exact matchGroup_nil 'S'
  · -- h and s
    simp only [renderGroup, List.nil_append, List.append_assoc, List.cons_append]
    refine matchGroups_eq _ (natChars c ++ ['S']) (natChars c ++ ['S']) []
      (some a) none (some c) ?_ ?_ ?_
    · rw [matchGroup_eat 'H' (by decide) (natChars a) (natChars c ++ ['S'])
        (natChars_ne_nil a) (natChars_all_digits a), natOfDigits_natChars]
    · exact matchGroup_skip 'M' 'S' (natChars c) [] (natChars_all_digits c)
        (by decide) (by decide)
    · rw [matchGroup_eat 'S' (by decide) (natChars c) [] (natChars_ne_nil c)
        (natChars_all_digits c), natOfDigits_natChars]
  · -- h and m
    simp only [renderGroup, List.nil_append, List.append_nil, List.append_assoc,
      List.cons_append]
    refine matchGroups_eq _ (natChars b ++ ['M']) [] [] (some a) (some b) none ?_ ?_ ?_
    · rw [matchGroup_eat 'H' (by decide) (natChars a) (natChars b ++ ['M'])
        (natChars_ne_nil a) (natChars_all_digits a), natOfDigits_natChars]
    · rw [matchGroup_eat 'M' (by decide) (natChars b) [] (natChars_ne_nil b)
        (natChars_all_digits b), natOfDigits_natChars]
    · exact matchGroup_nil 'S'
  · -- h, m and s
    simp only [renderGroup, List.nil_append, List.append_assoc, List.cons_append]
    refine matchGroups_eq _ (natChars b ++ 'M' :: (natChars c ++ ['S']))
      (natChars c ++ ['S']) [] (some a) (some b) (some c) ?_ ?_ ?_
    · rw [matchGroup_eat 'H' (by decide) (natChars a)
        (natChars b ++ 'M' :: (natChars c ++ ['S'])) (natChars_ne_nil a)
        (natChars_all_digits a), natOfDigits_natChars]
    · rw [matchGroup_eat 'M' (by decide) (natChars b) (natChars c ++ ['S'])
        (natChars_ne_nil b) (natChars_all_digits b), natOfDigits_natChars]
    · rw [matchGroup_eat 'S' (by decide) (natChars c) [] (natChars_ne_nil c)
        (natChars_all_digits c), natOfDigits_natChars]

theorem classifyDuration_durationSeconds (n : ℕ) :
    (classifyDuration n).durationSeconds = n := by
  unfold classifyDuration
  split_ifs <;> rfl

theorem classifyDuration_type_ne_unknown (n : ℕ) :
    (classifyDuration n).type ≠ "Unknown" := by
  unfold classifyDuration
  split_ifs <;> simp

theorem renderDuration_ne_empty (h m s : Option ℕ) : renderDuration h m s ≠ "" := by
  intro heq
  have hdata := congrArg String.data heq
  simp [renderDuration] at hdata

/-- **C4.**  The Duration Parser never fails: for every well-formed compact
duration code `"PT[nH][nM][nS]"` the parsed `durationSeconds` is
`hours*3600 + minutes*60 + seconds` with each absent group defaulting to
`0`; for absent/non-string input (`none`) and for any string the regex does
not match, the result is exactly `0` — `getContentType` is total, no error
path exists.  (This is the guarded parser of the main file; spec §9 treats
the unguarded copy in the draft `4o.js` as a superseded draft.) -/
theorem getContentType_totalSeconds (h m s : Option ℕ) (junk : String) :
    (getContentType (some (renderDuration h m s))).durationSeconds =
      h.getD 0 * 3600 + m.getD 0 * 60 + s.getD 0 ∧
    (getContentType none).durationSeconds = 0 ∧
    (findPT junk.data = none → (getContentType (some junk)).durationSeconds = 0) := by
  refine ⟨?_, rfl, ?_⟩
  · rw [getContentType, if_neg (renderDuration_ne_empty h m s)]
    have hfind : findPT (renderDuration h m s).data =
        some (renderGroup h 'H' ++ (renderGroup m 'M' ++ renderGroup s 'S')) := rfl
    simp only [hfind, matchGroups_render, classifyDuration_durationSeconds]
  · intro hf
    rw [getContentType]
    split_ifs with hj
    · rfl
    · simp only [hf]
      rfl

/-- Witness for `getContentType_totalSeconds`: the code `"PT1H2M3S"`
(rendered from components 1 h, 2 min, 3 s) parses to 3723 seconds, and the
non-matching string `"abc"` parses to 0. -/
theorem getContentType_totalSeconds_witness :
    (getContentType (some (renderDuration (some 1) (some 2) (some 3)))).durationSeconds =
      3723 ∧
    (getContentType (some "abc")).durationSeconds = 0 := by
  have key := getContentType_totalSeconds (some 1) (some 2) (some 3) "abc"
  exact ⟨by rw [key.1]; decide, key.2.2 rfl⟩

/-- **C5.**  The Content Classifier returns Shorts iff `seconds ≤ 60`,
Mid-form iff `60 < seconds ≤ 600` and Long-form iff `seconds > 600`; the
Unknown classification arises exactly when duration parsing failed (absent
input, empty string, or no regex match) and is never produced by the
classification branch, so it is never folded into Long-form. -/
theorem getContentType_buckets (n : ℕ) (iso : Option String) :
    ((classifyDuration n).type = "Shorts" ↔ n ≤ 60) ∧
    ((classifyDuration n).type = "Mid-form" ↔ 60 < n ∧ n ≤ 600) ∧
    ((classifyDuration n).type = "Long-form" ↔ 600 < n) ∧
    ((getContentType iso).type = "Unknown" ↔
      iso = none ∨ ∃ s, iso = some s ∧ (s = "" ∨ findPT s.data = none)) := by
  refine ⟨?_, ?_, ?_, ?_⟩
  · unfold classifyDuration
    split_ifs with h1 h2 <;> simp <;> omega
  · unfold classifyDuration
    split_ifs with h1 h2 <;> simp <;> omega
  · unfold classifyDuration
    split_ifs with h1 h2 <;> simp <;> omega
  · cases iso with
    | none => simp [getContentType, unknownContentType]
    | some s =>
      rw [getContentType]
      split_ifs with hs
      · constructor
        · intro _
          exact Or.inr ⟨s, rfl, Or.inl hs⟩
        · intro _
          rfl
      · cases hfp : findPT s.data with
        | none =>
          constructor
          · intro _
            exact Or.inr ⟨s, rfl, Or.inr hfp⟩
          · intro _
            rfl
        | some rest =>
          constructor
          · intro hty
            exact absurd hty (classifyDuration_type_ne_unknown _)
          · rintro (h0 | ⟨s', hs', hcase⟩)
            · exact absurd h0 (by simp)
            · obtain rfl : s' = s := (Option.some.inj hs').symm
              rcases hcase with rfl | hfp2
              · exact absurd rfl hs
              · rw [hfp] at hfp2
                exact absurd hfp2 (by simp)
